import Mathlib

/-!
Shallow embedding of `classy_vision/tasks/classification_task.py`
(`ClassificationTask`), covering the task-orchestrator state machine:
phase-plan construction, the `where` progress property, train/eval steps,
phase advancement, checkpoint state extraction/restoration, distributed
wrapping and hook registration.

External collaborators (datasets/dataloaders, model, loss, optimizer,
meters, hooks, distributed primitives) are modelled by their observable
interaction: calls to them are recorded as events in a trace, and the
values they produce (batches, loss values, outputs) are parameters of the
step functions.  Python floats produced by the loss are modelled by a sum
type distinguishing finite values from infinities and NaN, with Python's
`==` comparison semantics; integer and rational arithmetic is exact.
Python exceptions are modelled as error results; since Python mutations
survive a raise, every stateful operation returns the (possibly partially
mutated) state together with an optional error.
-/

namespace ClassyVision

/-- Python exceptions raised by the task code. -/
inductive Err
  | stopIteration
  | assertionError (msg : String)
  | floatingPointError
  | indexError
  | zeroDivisionError
  | runtimeError (msg : String)
deriving DecidableEq, Repr

/-- A Python float as observed by `check_inf_nan`: a finite value (exact
rational), one of the two infinities, or NaN. -/
inductive FloatVal
  | finite (q : ℚ)
  | posInf
  | negInf
  | nan
deriving DecidableEq, Repr

/-- Python `==` on floats: NaN compares unequal to everything (itself
included); infinities compare equal only to themselves. -/
def floatEq : FloatVal → FloatVal → Bool
  | .finite a, .finite b => a = b
  | .posInf, .posInf => true
  | .negInf, .negInf => true
  | _, _ => false

/-- Python `float * int` as used in `loss.item() * target.size(0)`:
`inf * 0` is NaN, `nan * n` is NaN. -/
def floatMulNat : FloatVal → Nat → FloatVal
  | .finite q, n => .finite (q * n)
  | .posInf, n => if n = 0 then .nan else .posInf
  | .negInf, n => if n = 0 then .nan else .negInf
  | .nan, _ => .nan

/-- `check_inf_nan` (classification_task.py:764-766):
`if loss == float("inf") or loss == float("-inf") or loss != loss: raise
FloatingPointError`. -/
def check_inf_nan (loss : FloatVal) : Option Err :=
  if floatEq loss .posInf || floatEq loss .negInf || !(floatEq loss loss) then
    some .floatingPointError
  else
    none

/-- True exactly when `check_inf_nan` would pass. -/
def FloatVal.isFinite : FloatVal → Bool
  | .finite _ => true
  | _ => false

/-- Observable calls the task makes to its collaborators (model, loss,
optimizer, meters, dataloaders, distributed primitives). -/
inductive Ev
  | meterReset
  | gpuCopy
  | mixupApplied
  | forward
  | allReduceLoss
  | lossAppend
  | meterUpdate
  | zeroGrad
  | backward
  | schedStep
  | optStep
  | schedEpoch
  | rebuildLoader
  | createIterator
  | modelTrainMode (train : Bool)
  | lossTrainMode (train : Bool)
  | broadcastBuffers
  | modelStateRestore
  | optimizerStateRestore
  | meterStateRestore
  | lossStateRestore
  | ampStateRestore
  | hookStateRestore (name : String)
  | hookStateMissing (name : String)
deriving DecidableEq, Repr

/-- `BroadcastBuffersMode` enum (classification_task.py:51-60). -/
inductive BroadcastBuffersMode
  | disabled
  | forwardPass
  | beforeEval
deriving DecidableEq, Repr

/-- The data the task reads off a dataset/dataloader pair for one phase
type: the batch count of its iterator and the dataset's global batch
size. -/
structure DatasetInfo where
  numBatches : Nat
  globalBatchsize : Nat
deriving DecidableEq, Repr

/-- Fixed collaborator environment for a run: whether this is a
distributed training run, and the per-phase-type dataset data. -/
structure TaskEnv where
  isDistributed : Bool
  trainDs : DatasetInfo
  testDs : DatasetInfo
deriving DecidableEq, Repr

/-- A batch produced by the data iterator, as inspected by the steps'
assertion: is it a mapping, does it have the `"input"` / `"target"` keys,
and `target.size(0)` (its batch dimension). -/
structure Sample where
  isMapping : Bool
  hasInput : Bool
  hasTarget : Bool
  targetSize : Nat
deriving DecidableEq, Repr

/-- `LastBatchInfo` (classification_task.py:69-73).  The output and target
tensors are external collaborator values; the target tensor is represented
by its batch dimension. -/
structure LastBatchInfo where
  loss : FloatVal
  output : Int
  targetSize : Nat
  sample : Sample
deriving DecidableEq, Repr

/-- The mutable fields of `ClassificationTask` the orchestration logic
reads and writes.  A phase descriptor `{"train": b}` is represented by the
Bool `b`.  `distributed_model` is `true` when the DDP-wrapped model is
present (`is not None`).  Sub-states owned by collaborators (model,
optimizer, meter and hook contents) live outside this record; restoring
them is recorded as trace events. -/
structure TaskState where
  phases : List Bool
  phase_idx : Int
  train_phase_idx : Int
  num_updates : Nat
  losses : List FloatVal
  train : Bool
  test_only : Bool
  num_epochs : Nat
  test_phase_period : Nat
  train_phases_per_epoch : ℚ
  last_batch : Option LastBatchInfo
  distributed_model : Bool
  loss_distributed : Bool
  loss_is_classy : Bool
  loss_has_learned_parameters : Bool
  broadcast_buffers_mode : BroadcastBuffersMode
  find_unused_parameters : Bool
  amp_enabled : Bool
  use_gpu : Bool
  mixup_enabled : Bool
  hooks : List String
deriving DecidableEq, Repr

/-- The dataset the current phase type selects
(`self.dataloaders[self.phase_type]`). -/
def currentDs (env : TaskEnv) (s : TaskState) : DatasetInfo :=
  if s.train then env.trainDs else env.testDs

/-- `get_global_batchsize` (classification_task.py:946-949). -/
def get_global_batchsize (env : TaskEnv) (s : TaskState) : Nat :=
  (currentDs env s).globalBatchsize

/-- `num_batches_per_phase` property (classification_task.py:447-451):
`len(self.data_iterator)` for the current phase. -/
def num_batches_per_phase (env : TaskEnv) (s : TaskState) : Nat :=
  (currentDs env s).numBatches

/-- `get_total_training_phases` (classification_task.py:478-486). -/
def get_total_training_phases (s : TaskState) : Nat :=
  s.phases.count true

/-- `get_total_test_phases` (classification_task.py:488-496). -/
def get_total_test_phases (s : TaskState) : Nat :=
  s.phases.count false

/-- The `where` property (classification_task.py:640-662).  Python raises
`ZeroDivisionError` on division by zero, `RuntimeError` when the phase has
no batches, and `AssertionError` when the result leaves `[0, 1)`; the
value itself is exact rational arithmetic on `num_updates`, the global
batch size and the phase counts.  (`where` is a Lean keyword, hence the
`E` suffix.) -/
def whereE (env : TaskEnv) (s : TaskState) : Except Err ℚ :=
  if get_global_batchsize env s = 0 then .error .zeroDivisionError
  else
    let current_step : ℚ := (s.num_updates : ℚ) / (get_global_batchsize env s : ℚ)
    let num_phases : Nat :=
      if s.test_only then get_total_test_phases s else get_total_training_phases s
    if num_batches_per_phase env s ≤ 0 then
      .error (.runtimeError "No batches to read. Is the dataset empty?")
    else
      let num_steps : ℚ := ((num_phases * num_batches_per_phase env s : Nat) : ℚ)
      if num_steps = 0 then .error .zeroDivisionError
      else
        let w := current_step / num_steps
        if 0 ≤ w ∧ w < 1 then .ok w
        else .error (.assertionError "Invalid where")

/-- The interleaving loop of `_build_phases` (classification_task.py:
517-521): iterate over `n` train descriptors with running index `i`,
appending each and following the `(i+1)`-th with a test descriptor when
`(i + 1) % test_phase_period == 0`. -/
def interleaveTrainTest (test_phase_period : Nat) : Nat → Nat → List Bool
  | 0, _ => []
  | n + 1, i =>
      true :: ((if (i + 1) % test_phase_period = 0 then [false] else [])
        ++ interleaveTrainTest test_phase_period n (i + 1))

/-- `_build_phases` (classification_task.py:498-526), as a function of the
knobs it reads: `test_only`, `num_epochs`, `test_phase_period` and
`train_phases_per_epoch`.  In the non-test-only branch Python builds
`math.ceil(train_phases_per_epoch * num_epochs)` train descriptors (an
empty `range` when the ceiling is not positive), interleaves test
descriptors, and then evaluates `final_phases[-1]` — an `IndexError` when
the list is empty; `(i+1) % test_phase_period` raises `ZeroDivisionError`
on the first loop iteration when the period is zero. -/
def build_phases (test_only : Bool) (num_epochs : Nat) (test_phase_period : Nat)
    (train_phases_per_epoch : ℚ) : Except Err (List Bool) :=
  if !test_only then
    let n : Nat := (⌈train_phases_per_epoch * (num_epochs : ℚ)⌉).toNat
    if n ≠ 0 ∧ test_phase_period = 0 then .error .zeroDivisionError
    else
      let final_phases := interleaveTrainTest test_phase_period n 0
      match final_phases.getLast? with
      | none => .error .indexError
      | some b => .ok (if b then final_phases ++ [false] else final_phases)
  else
    .ok (List.replicate num_epochs false)

/-- `_build_phases` as the task method (reads the task's fields). -/
def TaskState.build_phases_of (s : TaskState) : Except Err (List Bool) :=
  build_phases s.test_only s.num_epochs s.test_phase_period s.train_phases_per_epoch

/-- Result of running one stateful operation: the state after it (with all
mutations applied up to the point of a raise, matching Python exception
semantics), the trace of collaborator calls made, and the raised exception
if any. -/
structure StepOut where
  state : TaskState
  trace : List Ev
  err : Option Err
deriving DecidableEq, Repr

/-- Python list indexing `l[i]`: non-negative indices from the front,
negative indices wrap from the back, out-of-range raises `IndexError`. -/
def pyGet {α : Type} (l : List α) (i : Int) : Except Err α :=
  let j : Int := if i < 0 then i + l.length else i
  if j < 0 then .error .indexError
  else
    match l.get? j.toNat with
    | some a => .ok a
    | none => .error .indexError

/-- `_set_model_train_mode` (classification_task.py:915-926): reads
`self.phases[self.phase_idx]`, switches model and loss train mode, and
under the before-eval buffer policy broadcasts buffers when entering an
eval phase (`_broadcast_buffers` is a no-op without a distributed model;
the per-buffer broadcast calls are summarized by one event). -/
def set_model_train_mode (s : TaskState) : List Ev × Option Err :=
  match pyGet s.phases s.phase_idx with
  | .error e => ([], some e)
  | .ok phase =>
      let tr := [Ev.modelTrainMode phase, Ev.lossTrainMode phase]
      let tr := tr ++
        (if s.broadcast_buffers_mode = .beforeEval ∧ s.train = false then
          (if s.distributed_model then [Ev.broadcastBuffers] else [])
        else [])
      (tr, none)

/-- `train_step` (classification_task.py:768-823).  The batch returned by
`next(self.get_data_iterator())` is the `batch?` parameter (`none` models
an exhausted iterator raising `StopIteration`); the forward/loss
computation is external, so the cross-process-averaged reporting loss it
produces is the `reportedLoss` parameter and the model output the
`output` parameter. -/
def train_step (env : TaskEnv) (s0 : TaskState) (batch? : Option Sample)
    (output : Int) (reportedLoss : FloatVal) : StepOut :=
  -- self.last_batch = None
  let s := { s0 with last_batch := none }
  match batch? with
  | none => ⟨s, [], some .stopIteration⟩
  | some sample =>
    -- assert isinstance(sample, dict) and "input" in sample and "target" in sample
    if ¬ (sample.isMapping ∧ sample.hasInput ∧ sample.hasTarget) then
      ⟨s, [], some (.assertionError "sample is not a map with input and target keys")⟩
    else
      let tr := if s.use_gpu then [Ev.gpuCopy] else []
      let tr := tr ++ (if s.mixup_enabled then [Ev.mixupApplied] else [])
      -- forward pass, loss computation, detach + all_reduce_mean
      let tr := tr ++ [Ev.forward, Ev.allReduceLoss]
      -- self.losses.append(loss.data.cpu().item() * target.size(0))
      let s := { s with losses := s.losses ++ [floatMulNat reportedLoss sample.targetSize] }
      let tr := tr ++ [Ev.lossAppend, Ev.meterUpdate]
      -- backward pass (apex.amp scaled-loss branch zeroes gradients first)
      let tr := tr ++ (if s.amp_enabled then [Ev.zeroGrad, Ev.backward] else [Ev.backward])
      match check_inf_nan reportedLoss with
      | some e => ⟨s, tr, some e⟩
      | none =>
        -- self.optimizer.update_schedule_on_step(self.where)
        match whereE env s with
        | .error e => ⟨s, tr, some e⟩
        | .ok _ =>
          let tr := tr ++ [Ev.schedStep, Ev.optStep]
          let s := { s with num_updates := s.num_updates + get_global_batchsize env s }
          let lb : LastBatchInfo := ⟨reportedLoss, output, sample.targetSize, sample⟩
          let s := { s with last_batch := some lb }
          ⟨s, tr, none⟩

/-- `eval_step` (classification_task.py:728-762).  Same data fetch and
assertion as `train_step`; forward runs under `no_grad`; `check_inf_nan`
runs before the loss is appended to the history and before the meters are
updated, and neither the optimizer nor `num_updates` is touched. -/
def eval_step (env : TaskEnv) (s0 : TaskState) (batch? : Option Sample)
    (output : Int) (reportedLoss : FloatVal) : StepOut :=
  let s := { s0 with last_batch := none }
  match batch? with
  | none => ⟨s, [], some .stopIteration⟩
  | some sample =>
    if ¬ (sample.isMapping ∧ sample.hasInput ∧ sample.hasTarget) then
      ⟨s, [], some (.assertionError "sample is not a map with input and target keys")⟩
    else
      let tr := if s.use_gpu then [Ev.gpuCopy] else []
      let tr := tr ++ [Ev.forward, Ev.allReduceLoss]
      match check_inf_nan reportedLoss with
      | some e => ⟨s, tr, some e⟩
      | none =>
        let s := { s with losses := s.losses ++ [floatMulNat reportedLoss sample.targetSize] }
        let tr := tr ++ [Ev.lossAppend, Ev.meterUpdate]
        let lb : LastBatchInfo := ⟨reportedLoss, output, sample.targetSize, sample⟩
        let s := { s with last_batch := some lb }
        ⟨s, tr, none⟩

/-- `advance_phase` (classification_task.py:836-866): reset meters, clear
the loss history, increment `phase_idx`, read the new phase descriptor,
set the train flag, increment `train_phase_idx` on a train phase, rebuild
the dataloader and iterator, set model train mode, and — when the new
phase is a train phase and `train_phase_idx` (already incremented) is
non-negative — invoke `self.optimizer.update_schedule_on_epoch(self.where)`. -/
def advance_phase (env : TaskEnv) (s0 : TaskState) : StepOut :=
  -- meter.reset() for each meter, then self.losses = []
  let s := { s0 with losses := [] }
  let s := { s with phase_idx := s.phase_idx + 1 }
  match pyGet s.phases s.phase_idx with
  | .error e => ⟨s, [Ev.meterReset], some e⟩
  | .ok phase =>
    let s := { s with train := phase }
    let s := if s.train then { s with train_phase_idx := s.train_phase_idx + 1 } else s
    let tr := [Ev.meterReset, Ev.rebuildLoader, Ev.createIterator]
    match set_model_train_mode s with
    | (tr2, some e) => ⟨s, tr ++ tr2, some e⟩
    | (tr2, none) =>
      let tr := tr ++ tr2
      if s.train ∧ 0 ≤ s.train_phase_idx then
        match whereE env s with
        | .error e => ⟨s, tr, some e⟩
        | .ok _ => ⟨s, tr ++ [Ev.schedEpoch], none⟩
      else
        ⟨s, tr, none⟩

/-- `advance_phase` with the trace dropped, for iteration. -/
def advance_phase_only (env : TaskEnv) (s : TaskState) : Except Err TaskState :=
  match advance_phase env s with
  | ⟨s', _, none⟩ => .ok s'
  | ⟨_, _, some e⟩ => .error e

/-- `advance_phase()` called `k` times in sequence. -/
def advanceK (env : TaskEnv) : Nat → TaskState → Except Err TaskState
  | 0, s => .ok s
  | k + 1, s => (advance_phase_only env s).bind (advanceK env k)

/-- The checkpoint record assembled by `get_classy_state`
(classification_task.py:664-688).  Model, optimizer, meter and hook
sub-states are opaque collaborator data; what the restore logic inspects
of them is captured: the keys of the `"hooks"` mapping, the truthiness of
the `"loss"` entry (`{}` when the loss is not a `ClassyLoss`), and the
presence of the `"amp"` key. -/
structure ClassyStateDict where
  train : Bool
  phase_idx : Int
  train_phase_idx : Int
  num_updates : Nat
  losses : List FloatVal
  hookNames : List String
  hasLoss : Bool
  hasAmp : Bool
deriving DecidableEq, Repr

/-- `get_classy_state` (classification_task.py:664-688).  `deep_copy`
only deep-copies the returned record, which is invisible under value
semantics, so it is not a parameter here. -/
def get_classy_state (s : TaskState) : ClassyStateDict :=
  { train := s.train
    phase_idx := s.phase_idx
    train_phase_idx := s.train_phase_idx
    num_updates := s.num_updates
    losses := s.losses
    hookNames := s.hooks
    hasLoss := s.loss_is_classy
    hasAmp := s.amp_enabled }

/-- `set_classy_state` (classification_task.py:690-727): restore the train
flag (forced to `False` in test-only mode); when not test-only, restore
`phase_idx`, `num_updates`, `train_phase_idx`, `losses` and each meter's
state; restore model and optimizer state unconditionally, loss state when
present and the loss is a `ClassyLoss`, amp state when present, and each
hook's state by name (hooks absent from the record are skipped with a
warning); finally rebuild the dataloader and iterator and reset the model
train mode. -/
def set_classy_state (s0 : TaskState) (st : ClassyStateDict) : StepOut :=
  let s := { s0 with train := if s0.test_only then false else st.train }
  let s :=
    if ¬ s0.test_only then
      { s with phase_idx := st.phase_idx
               num_updates := st.num_updates
               train_phase_idx := st.train_phase_idx
               losses := st.losses }
    else s
  let tr := if ¬ s0.test_only then [Ev.meterStateRestore] else []
  let tr := tr ++ [Ev.modelStateRestore, Ev.optimizerStateRestore]
  let tr := tr ++ (if st.hasLoss ∧ s.loss_is_classy then [Ev.lossStateRestore] else [])
  let tr := tr ++ (if st.hasAmp then [Ev.ampStateRestore] else [])
  let tr := tr ++ s.hooks.map (fun h =>
    if h ∈ st.hookNames then Ev.hookStateRestore h else Ev.hookStateMissing h)
  let tr := tr ++ [Ev.rebuildLoader, Ev.createIterator]
  match set_model_train_mode s with
  | (tr2, some e) => ⟨s, tr ++ tr2, some e⟩
  | (tr2, none) => ⟨s, tr ++ tr2, none⟩

/-- `init_distributed_data_parallel_model` (classification_task.py:
610-638): a no-op outside a distributed training run; otherwise asserts
the DDP-wrapped model is not already present, wraps the base model, and
also wraps the loss when it is a `ClassyLoss` with learned parameters. -/
def init_distributed_data_parallel_model (env : TaskEnv) (s : TaskState) :
    Except Err TaskState :=
  if ¬ env.isDistributed then .ok s
  else if s.distributed_model then
    .error (.assertionError "init_ddp_non_elastic must only be called once")
  else
    let s := { s with distributed_model := true }
    if s.loss_is_classy ∧ s.loss_has_learned_parameters then
      .ok { s with loss_distributed := true }
    else
      .ok s

/-- An element of the list handed to `set_hooks`: either a `ClassyHook`
instance, identified by its class-level `name()`, or any other Python
object. -/
inductive PyHookObj
  | classyHook (name : String)
  | other
deriving DecidableEq, Repr

/-- Whether the object is a `ClassyHook` instance. -/
def PyHookObj.isClassyHook : PyHookObj → Bool
  | .classyHook _ => true
  | .other => false

/-- The `name()` values of the `ClassyHook` elements, in order. -/
def hookNamesOf (hooks : List PyHookObj) : List String :=
  hooks.filterMap (fun h => match h with | .classyHook n => some n | .other => none)

/-- `set_hooks` (classification_task.py:292-307): asserts the argument is
a list (given here by the type), that every element is a `ClassyHook`, and
that the set of hook names has the same cardinality as the list; on
success the task's hook list becomes the given list.  Returns the new
hook list. -/
def set_hooks (hooks : List PyHookObj) : Except Err (List PyHookObj) :=
  if ¬ hooks.all PyHookObj.isClassyHook then
    .error (.assertionError "hooks must be ClassyHook instances")
  else if (hookNamesOf hooks).dedup.length ≠ hooks.length then
    .error (.assertionError "Cannot have repeated hooks of the same class")
  else
    .ok hooks

/-! ### Concrete example states -/

/-- The field values installed by `__init__` (classification_task.py:
120-155), with `use_gpu := false` (no CUDA available): `phase_idx = -1`,
`train_phase_idx = -1`, `num_updates = 0`, empty loss history, train flag
set, one epoch, test phase period one, zero train phases per epoch, no
phases, no hooks, everything optional disabled. -/
def initState : TaskState :=
  { phases := []
    phase_idx := -1
    train_phase_idx := -1
    num_updates := 0
    losses := []
    train := true
    test_only := false
    num_epochs := 1
    test_phase_period := 1
    train_phases_per_epoch := 0
    last_batch := none
    distributed_model := false
    loss_distributed := false
    loss_is_classy := true
    loss_has_learned_parameters := false
    broadcast_buffers_mode := .disabled
    find_unused_parameters := true
    amp_enabled := false
    use_gpu := false
    mixup_enabled := false
    hooks := [] }

/-- A non-distributed environment whose train and test dataloaders both
hold two batches at global batch size one. -/
def envLocal : TaskEnv := ⟨false, ⟨2, 1⟩, ⟨2, 1⟩⟩

/-- A distributed environment with the same dataset shape. -/
def envDist : TaskEnv := ⟨true, ⟨2, 1⟩, ⟨2, 1⟩⟩

/-- A prepared two-epoch task positioned at its first (train) phase:
plan `[train, test, train, test]`, `phase_idx = 0`, `train_phase_idx = 0`. -/
def preparedState : TaskState :=
  { initState with
      phases := [true, false, true, false]
      num_epochs := 2
      train_phases_per_epoch := 1
      phase_idx := 0
      train_phase_idx := 0 }

/-- A prepared test-only task positioned at its first (test) phase. -/
def testOnlyState : TaskState :=
  { initState with
      phases := [false]
      test_only := true
      train := false
      phase_idx := 0 }

/-- A well-formed batch: a mapping with the `"input"` and `"target"`
keys whose target has batch dimension one. -/
def goodSample : Sample := ⟨true, true, true, 1⟩

/-- A fresh prepared task: the plan installed, but no phase entered yet. -/
def freshPreparedState : TaskState :=
  { preparedState with phase_idx := -1, train_phase_idx := -1 }

/-- The claim's interleaving property: every train descriptor that is the
`test_phase_period`-th, `2·test_phase_period`-th, … train descriptor of
the plan is immediately followed by a test descriptor. -/
def testAfterEvery (test_phase_period : Nat) (l : List Bool) : Prop :=
  ∀ l1 l2, l = l1 ++ true :: l2 →
    (l1.count true + 1) % test_phase_period = 0 → l2.head? = some false

/-- The canonical projection of a task state onto the fields `where`
reads. -/
def coreOf (s : TaskState) : TaskState :=
  { initState with
      num_updates := s.num_updates
      train := s.train
      phases := s.phases
      test_only := s.test_only }

/-! ### Helper lemmas -/

/-- A non-finite loss value (by Python float comparison: equal to an
infinity, or unequal to itself) fails `check_inf_nan`. -/
theorem check_inf_nan_of_not_finite {l : FloatVal} (h : l.isFinite = false) :
    check_inf_nan l = some .floatingPointError := by
  cases l <;> simp_all [FloatVal.isFinite, check_inf_nan, floatEq]

/-- A finite loss value passes `check_inf_nan`. -/
theorem check_inf_nan_of_finite {l : FloatVal} (h : l.isFinite = true) :
    check_inf_nan l = none := by
  cases l <;> simp_all [FloatVal.isFinite, check_inf_nan, floatEq]

/-- When every element of the list is a `ClassyHook`, there are as many
hook names as hooks. -/
theorem hookNamesOf_length_eq {hooks : List PyHookObj}
    (h : hooks.all PyHookObj.isClassyHook = true) :
    (hookNamesOf hooks).length = hooks.length := by
  induction hooks with
  | nil => rfl
  | cons a t ih =>
      rw [List.all_cons, Bool.and_eq_true] at h
      cases a with
      | classyHook n =>
          have hstep : hookNamesOf (PyHookObj.classyHook n :: t) = n :: hookNamesOf t := rfl
          rw [hstep, List.length_cons, List.length_cons, ih h.2]
      | other => simp [PyHookObj.isClassyHook] at h

/-- Deduplication preserves the length exactly when the list has no
duplicates (the cardinality comparison `set_hooks` performs). -/
theorem dedup_length_eq_iff {l : List String} :
    l.dedup.length = l.length ↔ l.Nodup := by
  constructor
  · intro h
    have hsub := List.dedup_sublist l
    have heq := hsub.eq_of_length h
    rw [← heq]
    exact l.nodup_dedup
  · intro h
    rw [List.dedup_eq_self.mpr h]

/-! ### C1: checkpoint round-trip -/

/-- C1: for a task on which no mutation occurs between the two calls,
`set_classy_state(get_classy_state())` reproduces the task's `phase_idx`,
`train_phase_idx`, `num_updates` and `losses` fields exactly, for every
task state — including test-only tasks, where the restore skips these
fields and therefore leaves them at their (identical) saved values. -/
theorem checkpoint_roundtrip_preserves_counters (s : TaskState) :
    (set_classy_state s (get_classy_state s)).state.phase_idx = s.phase_idx ∧
    (set_classy_state s (get_classy_state s)).state.train_phase_idx = s.train_phase_idx ∧
    (set_classy_state s (get_classy_state s)).state.num_updates = s.num_updates ∧
    (set_classy_state s (get_classy_state s)).state.losses = s.losses := by
  by_cases h : s.test_only <;>
    simp only [set_classy_state, get_classy_state, h] <;>
    split <;> simp_all

/-! ### C8: distributed wrapping happens at most once -/

/-- C8 counterexample to the claim as stated: in a non-distributed run,
`init_distributed_data_parallel_model` returns immediately, so a second
invocation succeeds rather than failing with an assertion. -/
theorem init_ddp_second_call_no_assert_cex :
    init_distributed_data_parallel_model envLocal initState = .ok initState ∧
    ∀ e : Err, init_distributed_data_parallel_model envLocal initState ≠ .error e := by
  constructor
  · rfl
  · intro e h
    simp [init_distributed_data_parallel_model, envLocal] at h

/-- C8 (amended): in a distributed training run, a successful invocation
installs the DDP-wrapped model and any subsequent invocation fails with
the double-initialization assertion — so wrapping happens at most once
per task lifetime; in a non-distributed run the operation is a no-op that
never wraps. -/
theorem init_ddp_at_most_once (env : TaskEnv) (s s' : TaskState)
    (h : init_distributed_data_parallel_model env s = .ok s') :
    (env.isDistributed = true →
      s'.distributed_model = true ∧
      init_distributed_data_parallel_model env s' =
        .error (.assertionError "init_ddp_non_elastic must only be called once")) ∧
    (env.isDistributed = false → s' = s) := by
  unfold init_distributed_data_parallel_model at h
  by_cases hd : env.isDistributed
  · simp only [hd, Bool.not_true, Bool.false_eq_true, if_false, not_true_eq_false] at h
    by_cases hm : s.distributed_model
    · simp [hm] at h
    · simp only [hm, if_false, Bool.false_eq_true] at h
      have hs' : s'.distributed_model = true := by
        split at h <;> simp_all <;> subst h <;> rfl
      refine ⟨fun _ => ⟨hs', ?_⟩, fun hc => (absurd hd (by simp [hc]))⟩
      unfold init_distributed_data_parallel_model
      simp [hd, hs']
  · simp only [Bool.not_eq_true] at hd
    simp [hd] at h
    exact ⟨fun hc => (absurd hd (by simp [hc])), fun _ => h.symm⟩

/-- C8 witness: a fresh task in a distributed run wraps on the first call
and asserts on the second. -/
theorem init_ddp_at_most_once_witness :
    ({ initState with distributed_model := true } : TaskState).distributed_model = true ∧
    init_distributed_data_parallel_model envDist
        { initState with distributed_model := true } =
      .error (.assertionError "init_ddp_non_elastic must only be called once") :=
  (init_ddp_at_most_once envDist initState
    { initState with distributed_model := true } rfl).1 rfl

/-! ### C10: set_hooks validation -/

/-- C10: `set_hooks` raises an assertion error whenever the given list
contains two hooks with the same name, or any element that is not a
`ClassyHook`; when it succeeds, the resulting hook list equals the given
list in order. -/
theorem set_hooks_spec (hooks : List PyHookObj) :
    ((¬ (hookNamesOf hooks).Nodup ∨ PyHookObj.other ∈ hooks) →
        ∃ msg, set_hooks hooks = .error (.assertionError msg)) ∧
    (∀ l, set_hooks hooks = .ok l → l = hooks) := by
  constructor
  · intro hbad
    by_cases hall : hooks.all PyHookObj.isClassyHook
    · have hother : PyHookObj.other ∉ hooks := by
        intro hmem
        have := List.all_eq_true.mp hall _ hmem
        simp [PyHookObj.isClassyHook] at this
      have hnodup : ¬ (hookNamesOf hooks).Nodup := hbad.resolve_right hother
      refine ⟨"Cannot have repeated hooks of the same class", ?_⟩
      unfold set_hooks
      rw [if_neg (by simp [hall]), if_pos]
      intro heq
      rw [← hookNamesOf_length_eq hall] at heq
      exact hnodup (dedup_length_eq_iff.mp heq)
    · refine ⟨"hooks must be ClassyHook instances", ?_⟩
      unfold set_hooks
      rw [if_pos (by simpa using hall)]
  · intro l hl
    unfold set_hooks at hl
    split_ifs at hl
    exact (Except.ok.injEq _ _ ▸ hl).symm

/-- C10 witness: two hooks sharing the name `"a"` are rejected. -/
theorem set_hooks_spec_witness :
    ¬ (hookNamesOf [PyHookObj.classyHook "a", PyHookObj.classyHook "a"]).Nodup ∧
    ∃ msg, set_hooks [PyHookObj.classyHook "a", PyHookObj.classyHook "a"] =
      .error (.assertionError msg) :=
  ⟨by decide, (set_hooks_spec _).1 (Or.inl (by decide))⟩

/-! ### C2: non-finite loss handling in the steps -/

/-- C2: on a well-formed batch whose reported loss is non-finite,
`train_step` raises `FloatingPointError` with the backward pass as the
last collaborator call, the loss already appended to the history, no
optimizer schedule update and no optimizer step, and `num_updates`
unchanged; `eval_step` raises it with no meter update and no loss-history
append, and `num_updates` unchanged. -/
theorem step_nonfinite_loss (env : TaskEnv) (s : TaskState) (sample : Sample)
    (output : Int) (loss : FloatVal)
    (hs : sample.isMapping ∧ sample.hasInput ∧ sample.hasTarget)
    (hl : loss.isFinite = false) :
    ((train_step env s (some sample) output loss).err = some .floatingPointError ∧
     (train_step env s (some sample) output loss).trace.getLast? = some .backward ∧
     Ev.lossAppend ∈ (train_step env s (some sample) output loss).trace ∧
     (train_step env s (some sample) output loss).state.losses =
        s.losses ++ [floatMulNat loss sample.targetSize] ∧
     Ev.schedStep ∉ (train_step env s (some sample) output loss).trace ∧
     Ev.optStep ∉ (train_step env s (some sample) output loss).trace ∧
     (train_step env s (some sample) output loss).state.num_updates = s.num_updates) ∧
    ((eval_step env s (some sample) output loss).err = some .floatingPointError ∧
     Ev.meterUpdate ∉ (eval_step env s (some sample) output loss).trace ∧
     Ev.lossAppend ∉ (eval_step env s (some sample) output loss).trace ∧
     (eval_step env s (some sample) output loss).state.losses = s.losses ∧
     (eval_step env s (some sample) output loss).state.num_updates = s.num_updates) := by
  rcases hs with ⟨h1, h2, h3⟩
  have hc := check_inf_nan_of_not_finite hl
  by_cases hg : s.use_gpu <;> by_cases hmix : s.mixup_enabled <;>
    by_cases hamp : s.amp_enabled <;>
    simp [train_step, eval_step, h1, h2, h3, hc, hg, hmix, hamp, List.getLast?]

/-- C2 witness: a NaN loss on a prepared local task. -/
theorem step_nonfinite_loss_witness :
    (goodSample.isMapping ∧ goodSample.hasInput ∧ goodSample.hasTarget) ∧
    FloatVal.nan.isFinite = false ∧
    (train_step envLocal preparedState (some goodSample) 0 .nan).err =
      some .floatingPointError ∧
    (eval_step envLocal preparedState (some goodSample) 0 .nan).state.num_updates =
      preparedState.num_updates :=
  ⟨by decide, by decide,
    (step_nonfinite_loss envLocal preparedState goodSample 0 .nan
      (by decide) (by decide)).1.1,
    (step_nonfinite_loss envLocal preparedState goodSample 0 .nan
      (by decide) (by decide)).2.2.2.2.2⟩

/-! ### C9: last_batch lifecycle -/

/-- `train_step` clears `last_batch` first and publishes the new
`LastBatchInfo` only on full success. -/
theorem train_step_last_batch_aux (env : TaskEnv) (s : TaskState)
    (batch? : Option Sample) (output : Int) (loss : FloatVal) :
    ((train_step env s batch? output loss).err ≠ none →
      (train_step env s batch? output loss).state.last_batch = none) ∧
    ((train_step env s batch? output loss).err = none →
      ∃ sample, batch? = some sample ∧
        (train_step env s batch? output loss).state.last_batch =
          some ⟨loss, output, sample.targetSize, sample⟩) := by
  cases batch? with
  | none => simp [train_step]
  | some sample =>
      simp only [train_step]
      split
      · simp
      · split
        · simp
        · split <;> simp

/-- `eval_step` clears `last_batch` first and publishes the new
`LastBatchInfo` only on full success. -/
theorem eval_step_last_batch_aux (env : TaskEnv) (s : TaskState)
    (batch? : Option Sample) (output : Int) (loss : FloatVal) :
    ((eval_step env s batch? output loss).err ≠ none →
      (eval_step env s batch? output loss).state.last_batch = none) ∧
    ((eval_step env s batch? output loss).err = none →
      ∃ sample, batch? = some sample ∧
        (eval_step env s batch? output loss).state.last_batch =
          some ⟨loss, output, sample.targetSize, sample⟩) := by
  cases batch? with
  | none => simp [eval_step]
  | some sample =>
      simp only [eval_step]
      split
      · simp
      · split <;> simp

/-- C9: both steps set `last_batch` to `None` as their first action and
assign the new `LastBatchInfo` only as their final action, so whenever a
step raises — missing batch, malformed batch, non-finite loss, or a
failure of the progress computation — `last_batch` is `None` afterwards,
and on success it holds exactly the new step's data, never the previous
step's. -/
theorem steps_reset_last_batch (env : TaskEnv) (s : TaskState)
    (batch? : Option Sample) (output : Int) (loss : FloatVal) :
    ((train_step env s batch? output loss).err ≠ none →
      (train_step env s batch? output loss).state.last_batch = none) ∧
    ((train_step env s batch? output loss).err = none →
      ∃ sample, batch? = some sample ∧
        (train_step env s batch? output loss).state.last_batch =
          some ⟨loss, output, sample.targetSize, sample⟩) ∧
    ((eval_step env s batch? output loss).err ≠ none →
      (eval_step env s batch? output loss).state.last_batch = none) ∧
    ((eval_step env s batch? output loss).err = none →
      ∃ sample, batch? = some sample ∧
        (eval_step env s batch? output loss).state.last_batch =
          some ⟨loss, output, sample.targetSize, sample⟩) :=
  ⟨(train_step_last_batch_aux env s batch? output loss).1,
   (train_step_last_batch_aux env s batch? output loss).2,
   (eval_step_last_batch_aux env s batch? output loss).1,
   (eval_step_last_batch_aux env s batch? output loss).2⟩

/-- C9 witness: an exhausted iterator (raising `StopIteration`) leaves
`last_batch` cleared. -/
theorem steps_reset_last_batch_witness :
    (train_step envLocal preparedState none 0 (.finite 1)).err ≠ none ∧
    (train_step envLocal preparedState none 0 (.finite 1)).state.last_batch = none :=
  ⟨by decide,
    (steps_reset_last_batch envLocal preparedState none 0 (.finite 1)).1 (by decide)⟩

/-! ### C3: the where progress property -/

/-- `where` reads only `num_updates`, the train flag, the phase plan and
the test-only flag (besides the environment). -/
theorem whereE_congr {env : TaskEnv} {s s' : TaskState}
    (h1 : s'.num_updates = s.num_updates) (h2 : s'.train = s.train)
    (h3 : s'.phases = s.phases) (h4 : s'.test_only = s.test_only) :
    whereE env s' = whereE env s := by
  simp only [whereE, get_global_batchsize, num_batches_per_phase, currentDs,
    get_total_test_phases, get_total_training_phases, h1, h2, h3, h4]

/-- Everything a successful `where` evaluation guarantees: non-zero global
batch size, a positive batch count, a non-zero step denominator, the value
formula, and the asserted bounds. -/
theorem whereE_ok_elim {env : TaskEnv} {s : TaskState} {w : ℚ}
    (h : whereE env s = .ok w) :
    get_global_batchsize env s ≠ 0 ∧
    0 < num_batches_per_phase env s ∧
    (((if s.test_only then get_total_test_phases s else get_total_training_phases s) *
        num_batches_per_phase env s : Nat) : ℚ) ≠ 0 ∧
    w = ((s.num_updates : ℚ) / (get_global_batchsize env s : ℚ)) /
        (((if s.test_only then get_total_test_phases s else get_total_training_phases s) *
          num_batches_per_phase env s : Nat) : ℚ) ∧
    0 ≤ w ∧ w < 1 := by
  simp only [whereE] at h
  by_cases h1 : get_global_batchsize env s = 0
  · rw [if_pos h1] at h; cases h
  rw [if_neg h1] at h
  by_cases h2 : num_batches_per_phase env s ≤ 0
  · rw [if_pos h2] at h; cases h
  rw [if_neg h2] at h
  by_cases h3 : (((if s.test_only = true then get_total_test_phases s
        else get_total_training_phases s) *
      num_batches_per_phase env s : Nat) : ℚ) = 0
  · rw [if_pos h3] at h; cases h
  rw [if_neg h3] at h
  by_cases h4 : 0 ≤ ((s.num_updates : ℚ) / (get_global_batchsize env s : ℚ)) /
        (((if s.test_only = true then get_total_test_phases s
            else get_total_training_phases s) *
          num_batches_per_phase env s : Nat) : ℚ) ∧
      ((s.num_updates : ℚ) / (get_global_batchsize env s : ℚ)) /
        (((if s.test_only = true then get_total_test_phases s
            else get_total_training_phases s) *
          num_batches_per_phase env s : Nat) : ℚ) < 1
  · rw [if_pos h4] at h
    injection h with hh
    subst hh
    exact ⟨h1, by omega, h3, rfl, h4⟩
  · rw [if_neg h4] at h; cases h

/-- A phase with zero batches makes `where` raise (either the
zero-batches `RuntimeError`, or — when the global batch size is zero —
the earlier `ZeroDivisionError`). -/
theorem whereE_zero_batches {env : TaskEnv} {s : TaskState}
    (h : num_batches_per_phase env s = 0) :
    ∃ e, whereE env s = .error e := by
  by_cases h1 : get_global_batchsize env s = 0
  · exact ⟨.zeroDivisionError, by simp [whereE, h1]⟩
  · exact ⟨.runtimeError "No batches to read. Is the dataset empty?",
      by simp [whereE, h1, h]⟩

/-- Making one parameter update's worth of progress (`num_updates`
increased by the global batch size, everything else `where` reads
unchanged) strictly increases a successfully evaluated `where`. -/
theorem whereE_succ_increase {env : TaskEnv} {s s' : TaskState} {w w' : ℚ}
    (ht : s'.train = s.train) (hp : s'.phases = s.phases)
    (hto : s'.test_only = s.test_only)
    (hnu : s'.num_updates = s.num_updates + get_global_batchsize env s)
    (hw : whereE env s = .ok w) (hw' : whereE env s' = .ok w') : w < w' := by
  obtain ⟨hg, -, hm, hwe, -, -⟩ := whereE_ok_elim hw
  obtain ⟨-, -, hm', hwe', -, -⟩ := whereE_ok_elim hw'
  have hgbs : get_global_batchsize env s' = get_global_batchsize env s := by
    simp [get_global_batchsize, currentDs, ht]
  have hnb : num_batches_per_phase env s' = num_batches_per_phase env s := by
    simp [num_batches_per_phase, currentDs, ht]
  have hph : (if s'.test_only then get_total_test_phases s' else get_total_training_phases s')
      = (if s.test_only then get_total_test_phases s else get_total_training_phases s) := by
    simp [get_total_test_phases, get_total_training_phases, hp, hto]
  rw [hgbs, hnb, hph, hnu] at hwe'
  rw [hnb, hph] at hm'
  have hgpos : (0 : ℚ) < (get_global_batchsize env s : ℚ) := by
    exact_mod_cast Nat.pos_of_ne_zero hg
  have hmpos : (0 : ℚ) <
      (((if s.test_only then get_total_test_phases s else get_total_training_phases s) *
        num_batches_per_phase env s : Nat) : ℚ) :=
    lt_of_le_of_ne (Nat.cast_nonneg _) (Ne.symm hm')
  rw [hwe, hwe']
  have hcast : ((s.num_updates + get_global_batchsize env s : Nat) : ℚ) =
      (s.num_updates : ℚ) + (get_global_batchsize env s : ℚ) := by push_cast; ring
  rw [hcast, add_div, div_self hgpos.ne', add_div]
  exact lt_add_of_pos_right _ (by positivity)

/-- A successful `train_step` evaluated `where` successfully on the way
(the pre-step value), adds exactly one global batch to `num_updates`, and
leaves the train flag, phase plan and test-only flag unchanged. -/
theorem train_step_success (env : TaskEnv) (s : TaskState) (batch? : Option Sample)
    (output : Int) (loss : FloatVal)
    (h : (train_step env s batch? output loss).err = none) :
    (∃ w, whereE env s = .ok w) ∧
    (train_step env s batch? output loss).state.num_updates =
      s.num_updates + get_global_batchsize env s ∧
    (train_step env s batch? output loss).state.train = s.train ∧
    (train_step env s batch? output loss).state.phases = s.phases ∧
    (train_step env s batch? output loss).state.test_only = s.test_only := by
  rcases hstep : train_step env s batch? output loss with ⟨st, tr, errv⟩
  rw [hstep] at h
  simp only at h
  subst h
  cases batch? with
  | none => simp [train_step] at hstep
  | some sample =>
      simp only [train_step] at hstep
      split at hstep
      · simp at hstep
      · split at hstep
        · simp at hstep
        · split at hstep
          · simp at hstep
          · rename_i heq
            simp only [StepOut.mk.injEq] at hstep
            obtain ⟨hst, -, -⟩ := hstep
            subst hst
            refine ⟨⟨_, Eq.trans ?_ heq⟩, ?_, ?_, ?_, ?_⟩
            · exact (whereE_congr (by simp) (by simp) (by simp) (by simp)).symm
            · simp [get_global_batchsize, currentDs]
            · simp
            · simp
            · simp

/-- `eval_step` never changes `num_updates`, the train flag, the phase
plan or the test-only flag, in any branch. -/
theorem eval_step_fields (env : TaskEnv) (s : TaskState) (batch? : Option Sample)
    (output : Int) (loss : FloatVal) :
    (eval_step env s batch? output loss).state.num_updates = s.num_updates ∧
    (eval_step env s batch? output loss).state.train = s.train ∧
    (eval_step env s batch? output loss).state.phases = s.phases ∧
    (eval_step env s batch? output loss).state.test_only = s.test_only := by
  cases batch? with
  | none => simp [eval_step]
  | some sample =>
      simp only [eval_step]
      split
      · simp
      · split <;> simp

/-- C3 (amended): across successive steps `where` never decreases — it
strictly increases across a successful `train_step` and is unchanged by
an `eval_step` (so it is not strictly increasing across every pair of
successive steps); every successfully evaluated value lies in `[0, 1)`;
and evaluating it when the current phase's iterator has zero batches
raises an error. -/
theorem where_progress (env : TaskEnv) (s : TaskState) (batch? : Option Sample)
    (output : Int) (loss : FloatVal) :
    ((train_step env s batch? output loss).err = none →
      ∀ w w', whereE env s = .ok w →
        whereE env (train_step env s batch? output loss).state = .ok w' → w < w') ∧
    ((eval_step env s batch? output loss).err = none →
      whereE env (eval_step env s batch? output loss).state = whereE env s) ∧
    (∀ w, whereE env s = .ok w → 0 ≤ w ∧ w < 1) ∧
    (num_batches_per_phase env s = 0 → ∃ e, whereE env s = .error e) := by
  refine ⟨?_, ?_, ?_, ?_⟩
  · intro h w w' hw hw'
    obtain ⟨-, hnu, ht, hp, hto⟩ := train_step_success env s batch? output loss h
    exact whereE_succ_increase ht hp hto hnu hw hw'
  · intro _
    obtain ⟨hnu, ht, hp, hto⟩ := eval_step_fields env s batch? output loss
    exact whereE_congr hnu ht hp hto
  · intro w hw
    exact (whereE_ok_elim hw).2.2.2.2
  · exact whereE_zero_batches

/-- C3 counterexample to strict increase across every pair of successive
steps: on a test-only task a fully successful `eval_step` leaves
`num_updates` — and hence `where` — unchanged at `0`. -/
theorem where_not_strictly_increasing_cex :
    (eval_step envLocal testOnlyState (some goodSample) 0 (.finite 1)).err = none ∧
    whereE envLocal
        (eval_step envLocal testOnlyState (some goodSample) 0 (.finite 1)).state =
      whereE envLocal testOnlyState ∧
    whereE envLocal testOnlyState = .ok 0 := by
  refine ⟨?_, ?_, ?_⟩
  · simp [eval_step, testOnlyState, initState, goodSample, check_inf_nan, floatEq]
  · simp [eval_step, testOnlyState, initState, goodSample, check_inf_nan, floatEq,
      whereE, get_global_batchsize, num_batches_per_phase, currentDs,
      get_total_test_phases, get_total_training_phases, envLocal]
  · simp [whereE, get_global_batchsize, num_batches_per_phase, currentDs,
      get_total_test_phases, get_total_training_phases, testOnlyState, initState, envLocal]

/-- C3 witness: one successful train step on the prepared task moves
`where` from `0` to `1/4`. -/
theorem where_progress_witness :
    (train_step envLocal preparedState (some goodSample) 0 (.finite 1)).err = none ∧
    (0 : ℚ) < 1 / 4 :=
  ⟨by simp [train_step, preparedState, initState, goodSample, check_inf_nan, floatEq,
      whereE, get_global_batchsize, num_batches_per_phase, currentDs,
      get_total_training_phases, envLocal],
   (where_progress envLocal preparedState (some goodSample) 0 (.finite 1)).1
    (by simp [train_step, preparedState, initState, goodSample, check_inf_nan, floatEq,
      whereE, get_global_batchsize, num_batches_per_phase, currentDs,
      get_total_training_phases, envLocal])
    0 (1 / 4)
    (by simp [whereE, get_global_batchsize, num_batches_per_phase, currentDs,
      get_total_training_phases, preparedState, initState, envLocal])
    (by simp [train_step, preparedState, initState, goodSample, check_inf_nan, floatEq,
      whereE, get_global_batchsize, num_batches_per_phase, currentDs,
      get_total_training_phases, envLocal]
        <;> norm_num)⟩

/-! ### C4 and C5: phase-plan builder structure -/

/-- The interleaving loop emits exactly `n` train descriptors. -/
theorem interleave_count (tpp : Nat) :
    ∀ n i, (interleaveTrainTest tpp n i).count true = n := by
  intro n
  induction n with
  | zero => intro i; rfl
  | succ m ih =>
      intro i
      simp only [interleaveTrainTest]
      split_ifs with hc <;>
        simp [List.count_cons, List.count_append, ih]

/-- The interleaving loop inserts a test descriptor right after the train
descriptor whose overall (1-based) index is divisible by the period:
formulated on an arbitrary split of the output, with `i` trains already
emitted before this call. -/
theorem interleave_testAfter (tpp : Nat) :
    ∀ n i l1 l2, interleaveTrainTest tpp n i = l1 ++ true :: l2 →
      (i + l1.count true + 1) % tpp = 0 → l2.head? = some false := by
  intro n
  induction n with
  | zero =>
      intro i l1 l2 heq _
      cases l1 <;> simp [interleaveTrainTest] at heq
  | succ m ih =>
      intro i l1 l2 heq hcnt
      simp only [interleaveTrainTest] at heq
      cases l1 with
      | nil =>
          simp only [List.nil_append] at heq
          have heq2 := (List.cons.inj heq).2
          have hc : (i + 1) % tpp = 0 := by
            simpa using hcnt
          rw [if_pos hc] at heq2
          rw [← heq2]
          rfl
      | cons b l1' =>
          obtain ⟨hb, heq2⟩ := List.cons.inj heq
          subst hb
          by_cases hc : (i + 1) % tpp = 0
          · rw [if_pos hc] at heq2
            cases l1' with
            | nil => simp at heq2
            | cons b' l1'' =>
                obtain ⟨hb', heq3⟩ := List.cons.inj heq2
                subst hb'
                refine ih (i + 1) l1'' l2 heq3 ?_
                have : (true :: false :: l1'').count true = l1''.count true + 1 := by
                  simp [List.count_cons]
                rw [this] at hcnt
                have harith : i + 1 + l1''.count true + 1 =
                    i + (l1''.count true + 1) + 1 := by omega
                rw [harith]
                exact hcnt
          · rw [if_neg hc] at heq2
            simp only [List.nil_append] at heq2
            refine ih (i + 1) l1' l2 heq2 ?_
            have : (true :: l1').count true = l1'.count true + 1 := by
              simp [List.count_cons]
            rw [this] at hcnt
            have harith : i + 1 + l1'.count true + 1 =
                i + (l1'.count true + 1) + 1 := by omega
            rw [harith]
            exact hcnt

/-- Appending a final test descriptor preserves the interleaving
property. -/
theorem testAfterEvery_append_false {tpp : Nat} {l : List Bool}
    (h : testAfterEvery tpp l) : testAfterEvery tpp (l ++ [false]) := by
  intro l1 l2 heq hcnt
  rcases List.append_eq_append_iff.mp heq with ⟨a', ha1, ha2⟩ | ⟨c', hc1, hc2⟩
  · -- `l1 = l ++ a'` and `[false] = a' ++ true :: l2`: impossible
    have hlen := congrArg List.length ha2
    simp at hlen
    have ha0 : a' = [] := List.length_eq_zero.mp (by omega)
    subst ha0
    simp at ha2
  · -- `l = l1 ++ c'` and `true :: l2 = c' ++ [false]`: the train lies in `l`
    cases c' with
    | nil => simp at hc2
    | cons x xs =>
        obtain ⟨hx, hl2⟩ := List.cons.inj hc2
        subst hx
        have hhead := h l1 xs hc1 hcnt
        cases xs with
        | nil => simp at hhead
        | cons y ys =>
            simp only [List.head?] at hhead
            rw [hl2]
            simpa using hhead

/-- Full structure of a non-test-only phase plan with a positive train
count: the builder succeeds, emits exactly the requested number of train
descriptors, respects the interleaving property, and ends on a test
descriptor. -/
theorem build_phases_train_ok (num_epochs test_phase_period : Nat) (ppe : ℚ)
    (htpp : 1 ≤ test_phase_period)
    (hn : 1 ≤ (⌈ppe * (num_epochs : ℚ)⌉).toNat) :
    ∃ l, build_phases false num_epochs test_phase_period ppe = .ok l ∧
      l.count true = (⌈ppe * (num_epochs : ℚ)⌉).toNat ∧
      testAfterEvery test_phase_period l ∧
      l.getLast? = some false ∧ l ≠ [] := by
  obtain ⟨m, hm⟩ : ∃ m, (⌈ppe * (num_epochs : ℚ)⌉).toNat = m + 1 :=
    ⟨(⌈ppe * (num_epochs : ℚ)⌉).toNat - 1, by omega⟩
  have hfp : interleaveTrainTest test_phase_period (⌈ppe * (num_epochs : ℚ)⌉).toNat 0 =
      true :: ((if (0 + 1) % test_phase_period = 0 then [false] else []) ++
        interleaveTrainTest test_phase_period m 1) := by
    rw [hm]; rfl
  have hta : testAfterEvery test_phase_period
      (interleaveTrainTest test_phase_period (⌈ppe * (num_epochs : ℚ)⌉).toNat 0) := by
    intro l1 l2 heq hcnt
    exact interleave_testAfter test_phase_period _ 0 l1 l2 heq (by simpa using hcnt)
  have hcount := interleave_count test_phase_period (⌈ppe * (num_epochs : ℚ)⌉).toNat 0
  simp only [build_phases, Bool.not_false, if_true]
  rw [if_neg (by omega)]
  cases hlast : (interleaveTrainTest test_phase_period
      (⌈ppe * (num_epochs : ℚ)⌉).toNat 0).getLast? with
  | none =>
      rw [List.getLast?_eq_none_iff] at hlast
      rw [hfp] at hlast
      cases hlast
  | some b =>
      cases b with
      | true =>
          refine ⟨_, rfl, ?_, ?_, ?_, ?_⟩
          · rw [if_pos rfl, List.count_append, hcount]
            simp
          · rw [if_pos rfl]
            exact testAfterEvery_append_false hta
          · rw [if_pos rfl]
            rw [List.getLast?_concat]
          · rw [if_pos rfl]
            simp
      | false =>
          refine ⟨_, rfl, ?_, ?_, ?_, ?_⟩
          · rw [if_neg (by simp), hcount]
          · rw [if_neg (by simp)]
            exact hta
          · rw [if_neg (by simp)]
            exact hlast
          · rw [if_neg (by simp)]
            rw [hfp]
            simp

/-- C4 counterexample to the claim as stated (which places no constraint
on `phases_per_epoch`): with `phases_per_epoch = 0` — the constructor
default — and `num_epochs = 1, test_phase_period = 1`, the builder builds
zero train descriptors and then raises `IndexError` on `final_phases[-1]`,
so no output with the claimed structure exists. -/
theorem build_phases_structure_cex :
    ¬ ∃ l, build_phases false 1 1 0 = .ok l ∧
      l.count true = (⌈(0 : ℚ) * ((1 : Nat) : ℚ)⌉).toNat ∧
      testAfterEvery 1 l ∧ l.getLast? = some false := by
  rintro ⟨l, hl, -⟩
  have : build_phases false 1 1 0 = .error .indexError := by
    simp [build_phases, interleaveTrainTest]
  rw [this] at hl
  cases hl

/-- C4 (amended): for every `num_epochs ≥ 1`, `test_phase_period ≥ 1` and
`phases_per_epoch` whose train-descriptor count
`ceil(phases_per_epoch · num_epochs)` is at least one (in particular any
`phases_per_epoch ≥ 1`), the non-test-only phase plan contains exactly
that many train descriptors, has a test descriptor immediately after
every `test_phase_period`-th train descriptor, and ends on a test
descriptor. -/
theorem build_phases_train_structure (num_epochs test_phase_period : Nat) (ppe : ℚ)
    (hne : 1 ≤ num_epochs) (htpp : 1 ≤ test_phase_period)
    (hn : 1 ≤ (⌈ppe * (num_epochs : ℚ)⌉).toNat) :
    ∃ l, build_phases false num_epochs test_phase_period ppe = .ok l ∧
      l.count true = (⌈ppe * (num_epochs : ℚ)⌉).toNat ∧
      testAfterEvery test_phase_period l ∧
      l.getLast? = some false := by
  obtain ⟨l, h1, h2, h3, h4, -⟩ := build_phases_train_ok num_epochs test_phase_period ppe htpp hn
  exact ⟨l, h1, h2, h3, h4⟩

/-- C4 witness: two epochs, period one, one phase per epoch. -/
theorem build_phases_train_structure_witness :
    ∃ l, build_phases false 2 1 1 = .ok l ∧
      l.count true = (⌈(1 : ℚ) * ((2 : Nat) : ℚ)⌉).toNat ∧
      testAfterEvery 1 l ∧ l.getLast? = some false :=
  build_phases_train_structure 2 1 1 (by norm_num) (by norm_num) (by norm_num)

/-- C5 counterexample to the claim as stated: at the constructor-default
`train_phases_per_epoch = 0` with `num_epochs = 1`, `test_phase_period =
1` and `test_only = False`, the builder raises `IndexError` instead of
returning a (non-empty) sequence. -/
theorem build_phases_nonempty_cex :
    build_phases false 1 1 0 = .error .indexError ∧
    ¬ ∃ l, build_phases false 1 1 0 = .ok l := by
  have h : build_phases false 1 1 0 = .error .indexError := by
    simp [build_phases, interleaveTrainTest]
  refine ⟨h, ?_⟩
  rintro ⟨l, hl⟩
  rw [h] at hl
  cases hl

/-- C5 (amended): for every `num_epochs ≥ 1` and `test_phase_period ≥ 1`,
and every `train_phases_per_epoch` — provided that, when `test_only` is
false, the train-descriptor count `ceil(train_phases_per_epoch ·
num_epochs)` is at least one — the phase-plan builder returns without
error and its output is non-empty. -/
theorem build_phases_nonempty (test_only : Bool) (num_epochs test_phase_period : Nat)
    (ppe : ℚ) (hne : 1 ≤ num_epochs) (htpp : 1 ≤ test_phase_period)
    (h : test_only = true ∨ 1 ≤ (⌈ppe * (num_epochs : ℚ)⌉).toNat) :
    ∃ l, build_phases test_only num_epochs test_phase_period ppe = .ok l ∧ l ≠ [] := by
  cases test_only with
  | true =>
      refine ⟨List.replicate num_epochs false, rfl, ?_⟩
      have : (List.replicate num_epochs false).length = num_epochs := by simp
      intro hnil
      rw [hnil] at this
      simp at this
      omega
  | false =>
      obtain ⟨l, h1, -, -, -, h5⟩ := build_phases_train_ok num_epochs test_phase_period ppe
        htpp (h.resolve_left (by simp))
      exact ⟨l, h1, h5⟩

/-- C5 witness: a test-only plan for three epochs is non-empty, and so is
a train plan for one epoch at one phase per epoch. -/
theorem build_phases_nonempty_witness :
    (∃ l, build_phases true 3 1 0 = .ok l ∧ l ≠ []) ∧
    (∃ l, build_phases false 1 1 1 = .ok l ∧ l ≠ []) :=
  ⟨build_phases_nonempty true 3 1 0 (by norm_num) (by norm_num) (Or.inl rfl),
   build_phases_nonempty false 1 1 1 (by norm_num) (by norm_num)
    (Or.inr (by norm_num))⟩

/-! ### C7: optimizer epoch-schedule update on phase entry -/

/-- `_set_model_train_mode` never calls the optimizer's epoch-schedule
update. -/
theorem set_model_train_mode_no_schedEpoch (s : TaskState) :
    Ev.schedEpoch ∉ (set_model_train_mode s).1 := by
  simp only [set_model_train_mode]
  split
  · simp
  · split_ifs <;> simp

/-- C7 counterexample to the claim as stated: entering the very first
train phase of a run (`train_phase_idx` going from `-1` to `0`) DOES
invoke `update_schedule_on_epoch`, because `train_phase_idx` is
incremented before the `train_phase_idx >= 0` guard is evaluated. -/
theorem sched_epoch_first_train_phase_cex :
    freshPreparedState.train_phase_idx = -1 ∧
    (advance_phase envLocal freshPreparedState).err = none ∧
    (advance_phase envLocal freshPreparedState).state.train_phase_idx = 0 ∧
    Ev.schedEpoch ∈ (advance_phase envLocal freshPreparedState).trace := by
  refine ⟨rfl, ?_, ?_, ?_⟩ <;>
    simp [advance_phase, set_model_train_mode, pyGet, whereE,
      get_global_batchsize, num_batches_per_phase, currentDs,
      get_total_training_phases, get_total_test_phases,
      freshPreparedState, preparedState, initState, envLocal]

/-- C7 (amended): during a successful `advance_phase` on a task whose
`train_phase_idx` is at least `-1`, the optimizer's per-epoch schedule
update is invoked if and only if the newly entered phase is a train phase
— including the very first train phase of the run, since the
`train_phase_idx >= 0` guard is evaluated after the increment and is
therefore satisfied by every train phase. -/
theorem sched_epoch_iff_train_phase (env : TaskEnv) (s : TaskState)
    (htpi : -1 ≤ s.train_phase_idx)
    (h : (advance_phase env s).err = none) :
    Ev.schedEpoch ∈ (advance_phase env s).trace ↔
      (advance_phase env s).state.train = true := by
  rcases hstep : advance_phase env s with ⟨st, tr, errv⟩
  rw [hstep] at h
  simp only at h
  subst h
  simp only [advance_phase] at hstep
  split at hstep
  · simp at hstep
  · rename_i phase hpg
    split at hstep
    · simp at hstep
    · rename_i tr2 hsm
      cases phase with
      | true =>
          rw [if_pos rfl] at hstep hsm
          split at hstep
          · split at hstep
            · simp at hstep
            · simp only [StepOut.mk.injEq] at hstep
              obtain ⟨hst, htr, -⟩ := hstep
              subst hst
              subst htr
              simp
          · rename_i hc
            exfalso
            apply hc
            refine ⟨rfl, ?_⟩
            show (0 : Int) ≤ s.train_phase_idx + 1
            omega
      | false =>
          rw [if_neg (by simp)] at hstep hsm
          split at hstep
          · rename_i hc
            simp at hc
          · simp only [StepOut.mk.injEq] at hstep
            obtain ⟨hst, htr, -⟩ := hstep
            subst hst
            subst htr
            have h1 := congrArg Prod.fst hsm
            have h1' : (set_model_train_mode _).1 = tr2 := h1
            simp only [List.cons_append, List.nil_append]
            constructor
            · intro hmem
              exfalso
              rw [List.mem_cons, List.mem_cons, List.mem_cons] at hmem
              rcases hmem with h | h | h | h
              · cases h
              · cases h
              · cases h
              · rw [← h1'] at h
                exact set_model_train_mode_no_schedEpoch _ h
            · intro hfalse
              cases hfalse

/-- C7 witness: advancing the prepared task into its second train phase
(a train phase) emits the epoch-schedule update. -/
theorem sched_epoch_iff_train_phase_witness :
    (advance_phase envLocal { preparedState with phase_idx := 1 }).err = none ∧
    (Ev.schedEpoch ∈ (advance_phase envLocal { preparedState with phase_idx := 1 }).trace ↔
      (advance_phase envLocal { preparedState with phase_idx := 1 }).state.train = true) :=
  ⟨by simp [advance_phase, set_model_train_mode, pyGet, whereE,
      get_global_batchsize, num_batches_per_phase, currentDs,
      get_total_training_phases, get_total_test_phases, preparedState, initState, envLocal],
   sched_epoch_iff_train_phase envLocal { preparedState with phase_idx := 1 }
    (by simp [preparedState, initState])
    (by simp [advance_phase, set_model_train_mode, pyGet, whereE,
      get_global_batchsize, num_batches_per_phase, currentDs,
      get_total_training_phases, get_total_test_phases, preparedState, initState, envLocal])⟩

/-! ### C6: advancing k phases -/

/-- Python indexing succeeds in range and returns the indexed element. -/
theorem pyGet_ok {α : Type} {l : List α} {i : Int} (h0 : 0 ≤ i)
    (h1 : i < l.length) :
    ∃ a, pyGet l i = .ok a ∧ l.get? i.toNat = some a := by
  have hlt : i.toNat < l.length := by omega
  have hsome : l.get? i.toNat = some (l[i.toNat]) := by
    rw [List.get?_eq_getElem?]
    exact List.getElem?_eq_getElem hlt
  have hni : ¬ i < 0 := by omega
  refine ⟨l[i.toNat], ?_, hsome⟩
  simp only [pyGet]
  rw [if_neg hni, if_neg hni, hsome]

/-- `where` only depends on the fields `coreOf` keeps. -/
theorem whereE_coreOf (env : TaskEnv) (s : TaskState) :
    whereE env s = whereE env (coreOf s) := rfl

/-- A successful in-range `advance_phase`: the entered phase descriptor is
the one at the incremented index, `phase_idx` goes up by one,
`train_phase_idx` goes up by one exactly on a train phase, and the fields
`where` reads (other than the train flag, which now matches the phase)
are untouched. -/
theorem advance_phase_ok (env : TaskEnv) (s : TaskState)
    (h0 : -1 ≤ s.phase_idx) (htpi : -1 ≤ s.train_phase_idx)
    (h1 : s.phase_idx + 1 < s.phases.length)
    (hw : ∀ b, ∃ w, whereE env { s with train := b } = .ok w) :
    ∃ phase, s.phases.get? (s.phase_idx + 1).toNat = some phase ∧
      (advance_phase env s).err = none ∧
      (advance_phase env s).state.phase_idx = s.phase_idx + 1 ∧
      (advance_phase env s).state.train_phase_idx =
        s.train_phase_idx + (if phase then 1 else 0) ∧
      (advance_phase env s).state.train = phase ∧
      (advance_phase env s).state.phases = s.phases ∧
      (advance_phase env s).state.num_updates = s.num_updates ∧
      (advance_phase env s).state.test_only = s.test_only := by
  obtain ⟨phase, hpg, hget⟩ := pyGet_ok (by omega) h1
  refine ⟨phase, hget, ?_⟩
  rcases hstep : advance_phase env s with ⟨st, tr, errv⟩
  simp only
  simp only [advance_phase] at hstep
  rw [hpg] at hstep
  simp only at hstep
  cases phase with
  | true =>
      rw [if_pos rfl] at hstep
      split at hstep
      · rename_i tr2 hsm
        simp only [set_model_train_mode] at hsm
        rw [hpg] at hsm
        simp at hsm
      · split at hstep
        · split at hstep
          · rename_i e hwe
            exfalso
            obtain ⟨w, hww⟩ := hw true
            rw [whereE_coreOf] at hww hwe
            simp only [coreOf] at hww hwe
            rw [hww] at hwe
            cases hwe
          · simp only [StepOut.mk.injEq] at hstep
            obtain ⟨hst, -, herr⟩ := hstep
            subst hst
            subst herr
            simp
        · rename_i hc
          exfalso
          refine hc ⟨rfl, ?_⟩
          show (0 : Int) ≤ s.train_phase_idx + 1
          omega
  | false =>
      rw [if_neg (by simp)] at hstep
      split at hstep
      · rename_i tr2 hsm
        simp only [set_model_train_mode] at hsm
        rw [hpg] at hsm
        simp at hsm
      · split at hstep
        · rename_i hc
          simp at hc
        · simp only [StepOut.mk.injEq] at hstep
          obtain ⟨hst, -, herr⟩ := hstep
          subst hst
          subst herr
          simp

/-- A raise-free `advance_phase` is what `advanceK` iterates. -/
theorem advance_phase_only_eq (env : TaskEnv) (s : TaskState)
    (h : (advance_phase env s).err = none) :
    advance_phase_only env s = .ok (advance_phase env s).state := by
  rcases hstep : advance_phase env s with ⟨st, tr, errv⟩
  rw [hstep] at h
  simp only at h
  subst h
  simp [advance_phase_only, hstep]

/-- C6: on a prepared task (plan installed, indices at least `-1`, and
the progress computation well defined for both phase types) with
`phase_idx + k` within the plan, calling `advance_phase()` `k` times
succeeds, increases `phase_idx` by exactly `k`, and increases
`train_phase_idx` by exactly the number of train descriptors among the
`k` phases entered. -/
theorem advance_k_increments (env : TaskEnv) (k : Nat) :
    ∀ s : TaskState, -1 ≤ s.phase_idx → -1 ≤ s.train_phase_idx →
      s.phase_idx + k < s.phases.length →
      (∀ b, ∃ w, whereE env { s with train := b } = .ok w) →
      ∃ s', advanceK env k s = .ok s' ∧
        s'.phase_idx = s.phase_idx + k ∧
        s'.train_phase_idx = s.train_phase_idx +
          ((s.phases.drop (s.phase_idx + 1).toNat).take k).count true := by
  induction k with
  | zero =>
      intro s h0 htpi h1 hw
      exact ⟨s, rfl, by omega, by simp⟩
  | succ m ih =>
      intro s h0 htpi h1 hw
      obtain ⟨phase, hget, herr, hpi, htpi', htr, hph, hnu, hto⟩ :=
        advance_phase_ok env s h0 htpi (by omega) hw
      set s1 := (advance_phase env s).state with hs1
      have hidx : (s.phase_idx + 1).toNat < s.phases.length := by omega
      have helem : s.phases[(s.phase_idx + 1).toNat] = phase := by
        rw [List.get?_eq_getElem?, List.getElem?_eq_getElem hidx] at hget
        simpa using hget
      obtain ⟨s', hK, hpi', htpi''⟩ := ih s1
        (by omega)
        (by cases phase <;> simp at htpi' <;> omega)
        (by rw [hph, hpi]; omega)
        (fun b => by
          obtain ⟨w, hww⟩ := hw b
          refine ⟨w, ?_⟩
          rw [whereE_coreOf]
          rw [whereE_coreOf] at hww
          simp only [coreOf] at hww ⊢
          rw [hnu, hph, hto]
          exact hww)
      refine ⟨s', ?_, by omega, ?_⟩
      · show (advance_phase_only env s).bind (advanceK env m) = .ok s'
        rw [advance_phase_only_eq env s herr]
        exact hK
      · have hdrop : s.phases.drop (s.phase_idx + 1).toNat =
            s.phases[(s.phase_idx + 1).toNat] ::
              s.phases.drop ((s.phase_idx + 1).toNat + 1) :=
          List.drop_eq_getElem_cons hidx
        have hcnt : List.count true (List.take (m + 1)
              (List.drop (s.phase_idx + 1).toNat s.phases)) =
            (if phase then 1 else 0) + List.count true (List.take m
              (List.drop ((s.phase_idx + 1).toNat + 1) s.phases)) := by
          rw [hdrop, helem, List.take_succ_cons, List.count_cons]
          cases phase <;> simp <;> omega
        rw [hph, hpi] at htpi''
        have hstep2 : (s.phase_idx + 1 + 1).toNat = (s.phase_idx + 1).toNat + 1 := by
          omega
        rw [hstep2] at htpi''
        rw [hcnt, htpi'', htpi']
        cases phase <;> simp <;> omega

/-- C6 witness: two advances on the fresh prepared task (plan
`[train, test, train, test]`) move `phase_idx` from `-1` to `1` and
`train_phase_idx` from `-1` to `0`. -/
theorem advance_k_increments_witness :
    ∃ s', advanceK envLocal 2 freshPreparedState = .ok s' ∧
      s'.phase_idx = freshPreparedState.phase_idx + 2 ∧
      s'.train_phase_idx = freshPreparedState.train_phase_idx +
        ((freshPreparedState.phases.drop
          (freshPreparedState.phase_idx + 1).toNat).take 2).count true :=
  advance_k_increments envLocal 2 freshPreparedState
    (by norm_num [freshPreparedState, preparedState, initState])
    (by norm_num [freshPreparedState, preparedState, initState])
    (by norm_num [freshPreparedState, preparedState, initState])
    (fun b => ⟨0, by
      cases b <;>
        simp [whereE, get_global_batchsize, num_batches_per_phase, currentDs,
          get_total_training_phases, get_total_test_phases,
          freshPreparedState, preparedState, initState, envLocal]⟩)

end ClassyVision
